import Mathlib

/-!
Shallow embedding of the LForms validation module
(src/app/scripts/lib/lforms-validate.js) together with proofs about its
contract.  The module is a stateless group of three check functions
(checkRequired, checkDataType, checkRestrictions); each takes the
caller-supplied error-message list and is modelled here as a pure function
returning the boolean verdict paired with the updated list.
-/

namespace LFormsValidate

/-- JavaScript runtime values as the validation module can receive them:
undefined, null, booleans, numbers (the module's claims only exercise
integral numbers, so numbers are modelled by integers), strings, plain
objects carrying an optional text property (the module only ever compares
that property with the empty string, so it is modelled as an optional
string), and arrays, modelled by their length (the only array datum the
module reads). -/
inductive JSValue where
  | undef : JSValue
  | null : JSValue
  | bool : Bool → JSValue
  | num : Int → JSValue
  | str : String → JSValue
  | obj : Option String → JSValue
  | arr : Nat → JSValue
deriving DecidableEq, Repr

/-- Test mirroring angular.isObject: true for objects and arrays, false for
null and primitives. -/
def JSValue.isObject : JSValue → Bool
  | .obj _ => true
  | .arr _ => true
  | _ => false

/-- Test mirroring angular.isArray. -/
def JSValue.isArray : JSValue → Bool
  | .arr _ => true
  | _ => false

/-- Reading the text property: only plain objects carry one in this model;
reading it from any other value yields JS undefined, modelled as none. -/
def JSValue.textProp : JSValue → Option String
  | .obj t => t
  | _ => none

/-- Reading the length property: strings and arrays have one; on any other
value the read yields JS undefined, modelled as none.  JS string length
counts UTF-16 units while the model counts code points; the two agree on the
Basic Multilingual Plane. -/
def JSValue.lengthProp : JSValue → Option Nat
  | .str s => some s.length
  | .arr n => some n
  | _ => none

/-- JavaScript numbers as far as the validator's comparisons observe them:
NaN, the two infinities, and finite values.  Finite values are modelled
exactly as rationals; IEEE-754 rounding is not modelled and no claim depends
on it. -/
inductive JSNum where
  | nan : JSNum
  | posInf : JSNum
  | negInf : JSNum
  | fin : ℚ → JSNum
deriving DecidableEq, Repr

/-- JS strict less-than on numbers: any comparison with NaN is false (finite
values compare through the kernel-computable Rat.blt). -/
def JSNum.lt : JSNum → JSNum → Bool
  | .nan, _ => false
  | _, .nan => false
  | .negInf, .negInf => false
  | .negInf, _ => true
  | .posInf, _ => false
  | .fin _, .posInf => true
  | .fin _, .negInf => false
  | .fin a, .fin b => Rat.blt a b

/-- JS less-than-or-equal on numbers: any comparison with NaN is false. -/
def JSNum.le : JSNum → JSNum → Bool
  | .nan, _ => false
  | _, .nan => false
  | .negInf, _ => true
  | .posInf, .posInf => true
  | .posInf, _ => false
  | .fin _, .posInf => true
  | .fin _, .negInf => false
  | .fin a, .fin b => !Rat.blt b a

/-- JS greater-than, by symmetry with less-than (NaN still yields false). -/
def JSNum.gt (a b : JSNum) : Bool := JSNum.lt b a

/-- JS greater-than-or-equal (NaN still yields false). -/
def JSNum.ge (a b : JSNum) : Bool := JSNum.le b a

/-- JS whitespace characters: the \s regex class and the set skipped by
parseFloat and parseInt. -/
def jsWsChars : List Char :=
  ['\t', '\n', '\x0B', '\x0C', '\r', ' ', '\u00A0', '\u1680',
   '\u2000', '\u2001', '\u2002', '\u2003', '\u2004', '\u2005', '\u2006',
   '\u2007', '\u2008', '\u2009', '\u200A', '\u2028', '\u2029', '\u202F',
   '\u205F', '\u3000', '\uFEFF']

/-- Membership in the JS whitespace set. -/
def isJsWs (c : Char) : Bool := jsWsChars.contains c

/-- Value of a run of decimal digits. -/
def digitsToNat (cs : List Char) : Nat :=
  cs.foldl (fun a c => 10 * a + (c.toNat - 48)) 0

/-- Modelled JS parseFloat: skip leading whitespace, read an optional sign,
then the longest prefix that is Infinity or a decimal literal (digits with
optional fraction and optional exponent); no such prefix gives NaN. -/
def parseFloatJS (s : String) : JSNum :=
  let cs := s.data.dropWhile isJsWs
  let neg : Bool :=
    match cs with
    | '-' :: _ => true
    | _ => false
  let cs1 : List Char :=
    match cs with
    | '-' :: r => r
    | '+' :: r => r
    | r => r
  if cs1.take 8 = "Infinity".data then
    if neg then .negInf else .posInf
  else
    let ip := cs1.takeWhile Char.isDigit
    let r1 := cs1.dropWhile Char.isDigit
    let fp : List Char :=
      match r1 with
      | '.' :: r => r.takeWhile Char.isDigit
      | _ => []
    let r2 : List Char :=
      match r1 with
      | '.' :: r => r.dropWhile Char.isDigit
      | r => r
    if ip = [] ∧ fp = [] then .nan
    else
      let expVal : Int :=
        match r2 with
        | 'e' :: t | 'E' :: t =>
          let eneg : Bool :=
            match t with
            | '-' :: _ => true
            | _ => false
          let t1 : List Char :=
            match t with
            | '-' :: u => u
            | '+' :: u => u
            | u => u
          let ed := t1.takeWhile Char.isDigit
          if ed = [] then 0
          else if eneg then -(digitsToNat ed : Int) else (digitsToNat ed : Int)
        | _ => 0
      let sgn : Int := if neg then -1 else 1
      let mantNum : Int := Int.ofNat (digitsToNat ip * 10 ^ fp.length + digitsToNat fp)
      if 0 ≤ expVal then
        .fin (mkRat (sgn * mantNum * Int.ofNat (10 ^ expVal.toNat)) (10 ^ fp.length))
      else
        .fin (mkRat (sgn * mantNum) (10 ^ fp.length * 10 ^ (-expVal).toNat))

/-- Hexadecimal digit test, for the 0x prefix parseInt accepts. -/
def isHexDigit (c : Char) : Bool :=
  c.isDigit || ('a' ≤ c && c ≤ 'f') || ('A' ≤ c && c ≤ 'F')

/-- Value of one hexadecimal digit. -/
def hexVal (c : Char) : Nat :=
  if c.isDigit then c.toNat - 48
  else if 'a' ≤ c && c ≤ 'f' then c.toNat - 87
  else c.toNat - 55

/-- Value of a run of hexadecimal digits. -/
def hexToNat (cs : List Char) : Nat :=
  cs.foldl (fun a c => 16 * a + hexVal c) 0

/-- Modelled JS parseInt with the radix unspecified: skip whitespace, read an
optional sign, then either a 0x-prefixed run of hex digits or a run of
decimal digits; no digits gives NaN. -/
def parseIntJS (s : String) : JSNum :=
  let cs := s.data.dropWhile isJsWs
  let neg : Bool :=
    match cs with
    | '-' :: _ => true
    | _ => false
  let cs1 : List Char :=
    match cs with
    | '-' :: r => r
    | '+' :: r => r
    | r => r
  let sgn : Int := if neg then -1 else 1
  match cs1 with
  | '0' :: 'x' :: r | '0' :: 'X' :: r =>
    let ds := r.takeWhile isHexDigit
    if ds = [] then .nan
    else .fin (mkRat (sgn * Int.ofNat (hexToNat ds)) 1)
  | r =>
    let ds := r.takeWhile Char.isDigit
    if ds = [] then .nan
    else .fin (mkRat (sgn * Int.ofNat (digitsToNat ds)) 1)

/-- JS ToString coercion on the modelled values; regex tests and the numeric
parses receive their argument through it.  An array is modelled by its
length alone, so it is coerced like an array of that many holes (a
comma-separated list of empty strings). -/
def jsToString : JSValue → String
  | .undef => "undefined"
  | .null => "null"
  | .bool true => "true"
  | .bool false => "false"
  | .num n => toString n
  | .str s => s
  | .obj _ => "[object Object]"
  | .arr 0 => ""
  | .arr (n + 1) => String.mk (List.replicate n ',')

/-- Message table _errorMessages from the source. -/
def errorMessages : String → Option String
  | "BL" => some "must be a boolean (true/false)."
  | "INT" => some "must be an integer number."
  | "REAL" => some "must be a decimal number."
  | "ST" => some "must be a string value."
  | "TX" => some "must be a text value."
  | "BIN" => some "must be a binary value."
  | "DT" => some "must be a date value."
  | "DTM" => some "must be a date and time value."
  | "TM" => some "must be a time value."
  | "CNE" => some "must be a value from the answer list."
  | "CWE" => some "must be a value from the answer list or a user supplied value."
  | "RTO" => some "must be a ratio value."
  | "QTY" => some "must be a quantity value."
  | "YEAR" => some "must be a numeric value of year."
  | "MONTH" => some "must be a numeric value of month."
  | "DAY" => some "must be a numeric value of day."
  | "URL" => some "must be a valid URL."
  | "EMAIL" => some "must be a valid email address."
  | "PHONE" => some "must be a valid phone number."
  | _ => none

/-- Shared guard of checkDataType and checkRestrictions: a value strictly
equal to undefined, null, or the empty string is exempt from both checks. -/
def isExempt (value : JSValue) : Bool :=
  value == .undef || value == .null || value == .str ""

/-- Translation of checkRequired: rejects a required value that is undefined,
null, the empty string, an object whose text property is the empty string, or
an array of length zero, appending one message to the caller's error list;
otherwise accepts and leaves the list unchanged. -/
def checkRequired (required : Bool) (value : JSValue) (errors : List String) :
    Bool × List String :=
  if required &&
      (value == .undef || value == .null || value == .str "" ||
       (value.isObject && value.textProp == some "") ||
       (value.isArray && value.lengthProp == some 0)) then
    (false, errors ++ ["requires a value"])
  else
    (true, errors)

/-- Regular expressions over characters; the source's anchored patterns are
transcribed into this type, whose language semantics coincides with a JS
whole-string test for patterns of the form caret-body-dollar. -/
abbrev RE := RegularExpression Char

/-- Finite character class, as an alternation over its member characters. -/
def charClass (l : List Char) : RE := l.foldr (fun c r => .char c + r) 0

/-- Optional occurrence, the ? postfix of JS regex syntax. -/
def reOpt (r : RE) : RE := r + 1

/-- Literal character sequence. -/
def strRE (s : String) : RE := s.data.foldr (fun c r => .char c * r) 1

/-- Inclusive character range. -/
def charRange (a b : Char) : List Char :=
  (List.range (b.toNat - a.toNat + 1)).map (fun i => Char.ofNat (a.toNat + i))

/-- Decimal digits, the \d class. -/
def digitChars : List Char := charRange '0' '9'

/-- Word characters, the \w class. -/
def wordChars : List Char :=
  charRange 'A' 'Z' ++ charRange 'a' 'z' ++ digitChars ++ ['_']

/-- Regex for one decimal digit. -/
def digitRE : RE := charClass digitChars

/-- Regex for one or more decimal digits. -/
def digitPlusRE : RE := digitRE * .star digitRE

/-- Regex for zero or more JS whitespace characters, the pattern piece
backslash-s-star. -/
def wsStarRE : RE := .star (charClass jsWsChars)

/-- Regex for one or more JS whitespace characters. -/
def wsPlusRE : RE := charClass jsWsChars * wsStarRE

/-- INT pattern from the source: whitespace, one or more digits, whitespace,
anchored at both ends. -/
def intRE : RE := wsStarRE * digitPlusRE * wsStarRE

/-- REAL pattern from the source: optional minus, mandatory integer digits,
optional point with optional fraction digits. -/
def realRE : RE :=
  reOpt (.char '-') * digitPlusRE * reOpt (.char '.' * .star digitRE)

/-- Hour alternatives of the 24-hour time branch: one digit, or zero/one
followed by a digit, or two followed by zero through four. -/
def hour24RE : RE :=
  digitRE + charClass ['0', '1'] * digitRE + .char '2' * charClass ['0', '1', '2', '3', '4']

/-- Minute piece of the time pattern: zero through five, then a digit. -/
def minuteRE : RE := charClass ['0', '1', '2', '3', '4', '5'] * digitRE

/-- Hour alternatives of the 12-hour time branch: one digit, or zero followed
by a digit, or one followed by zero through two. -/
def hour12RE : RE :=
  digitRE + .char '0' * digitRE + .char '1' * charClass ['0', '1', '2']

/-- Meridiem piece of the time pattern: a or p in either case, then m in
either case. -/
def ampmRE : RE := charClass ['a', 'A', 'p', 'P'] * charClass ['m', 'M']

/-- The 24-hour branch of the TM pattern. -/
def tm24RE : RE := hour24RE * .char ':' * minuteRE

/-- The 12-hour branch of the TM pattern, with optional whitespace before the
meridiem letters. -/
def tm12RE : RE := hour12RE * .char ':' * minuteRE * wsStarRE * ampmRE

/-- TM pattern from the source: optional surrounding whitespace around either
time branch, anchored at both ends. -/
def tmRE : RE := wsStarRE * (tm24RE + tm12RE) * wsStarRE

/-- YEAR pattern from the source: one to four digits. -/
def yearRE : RE := digitRE * reOpt (digitRE * reOpt (digitRE * reOpt digitRE))

/-- MONTH pattern from the source: an optionally zero-padded one through
nine, or ten through twelve. -/
def monthRE : RE :=
  reOpt (.char '0') * charClass (charRange '1' '9') + .char '1' * charClass ['0', '1', '2']

/-- DAY pattern from the source: an optionally zero-padded one through nine,
or ten through twenty-nine, or thirty and thirty-one. -/
def dayRE : RE :=
  reOpt (.char '0') * charClass (charRange '1' '9') + charClass ['1', '2'] * digitRE +
    .char '3' * charClass ['0', '1']

/-- Regex for one or more word characters, the piece backslash-w-plus. -/
def wordPlusRE : RE := charClass wordChars * .star (charClass wordChars)

/-- EMAIL pattern from the source: leading whitespace allowed, dotted word
segments, the at sign, then dotted word segments with at least one dot. -/
def emailRE : RE :=
  wsStarRE * (wordPlusRE * .star (.char '.' * wordPlusRE)) * .char '@' *
    (wordPlusRE * (.char '.' * wordPlusRE) * .star (.char '.' * wordPlusRE))

/-- Scheme piece of the URL pattern: http, optional s, colon slash slash. -/
def schemeRE : RE := strRE "http" * reOpt (.char 's') * strRE "://"

/-- Host characters of the URL pattern: digits, lowercase letters, dot,
hyphen. -/
def hostChars : List Char := digitChars ++ charRange 'a' 'z' ++ ['.', '-']

/-- Top-level-domain characters of the URL pattern: lowercase letters and
dot. -/
def tldChars : List Char := charRange 'a' 'z' ++ ['.']

/-- Top-level-domain piece of the URL pattern: two to six of its characters. -/
def tldRE : RE :=
  charClass tldChars * charClass tldChars * reOpt (charClass tldChars) *
    reOpt (charClass tldChars) * reOpt (charClass tldChars) * reOpt (charClass tldChars)

/-- Path characters of the URL pattern: slash, word characters, space, dot,
hyphen. -/
def pathChars : List Char := '/' :: wordChars ++ [' ', '.', '-']

/-- URL pattern from the source: optional scheme, host characters, a dot, the
top-level domain, path pieces, optional trailing slash. -/
def urlRE : RE :=
  reOpt schemeRE * (charClass hostChars * .star (charClass hostChars)) * .char '.' *
    tldRE * .star (.star (charClass pathChars)) * reOpt (.char '/')

/-- Separator alternatives of the phone pattern written as dash-opt or dot. -/
def sepDashDotRE : RE := reOpt (.char '-') + .char '.'

/-- Separator alternatives of the phone pattern written as dash-opt or
dot-opt. -/
def sepOptRE : RE := reOpt (.char '-') + reOpt (.char '.')

/-- One to four digits, the piece backslash-d with bound one-to-four. -/
def digit14RE : RE := digitRE * reOpt (digitRE * reOpt (digitRE * reOpt digitRE))

/-- Two or more digits, the piece backslash-d with lower bound two. -/
def digit2plusRE : RE := digitRE * digitRE * .star digitRE

/-- Trailing group of the international phone branch: whitespace, optional
digits, whitespace, then a dash or an optional dot; repeated up to three
times. -/
def intlTailPieceRE : RE :=
  wsStarRE * .star digitRE * wsStarRE * (.char '-' + reOpt (.char '.'))

/-- Extension piece of the phone pattern without its leading whitespace: x or
ext or X, whitespace, one or more digits. -/
def extCoreRE : RE :=
  (.char 'x' + strRE "ext" + .char 'X') * wsStarRE * digitPlusRE

/-- Core of the US phone branch (everything before the word boundary):
optional two digits, separator, optional parenthesised three digits with
separator, three digits, separator, four digits. -/
def phoneUSCoreRE : RE :=
  wsStarRE * reOpt (digitRE * digitRE) * wsStarRE * sepDashDotRE * wsStarRE *
    reOpt (reOpt (.char '(') * digitRE * digitRE * digitRE * reOpt (.char ')') *
      wsStarRE * sepOptRE) *
    wsStarRE * digitRE * digitRE * digitRE * wsStarRE * sepOptRE * wsStarRE *
    digitRE * digitRE * digitRE * digitRE

/-- Core of the international phone branch: plus sign, optional open
parenthesis, country digits, then spaced digit groups with separators. -/
def phoneIntlCoreRE : RE :=
  wsStarRE * .char '+' * reOpt (.char '(') *
    (digit14RE * reOpt (.char ')') * sepOptRE) *
    (wsStarRE * reOpt (.char '(') * digit2plusRE * reOpt (.char ')') * wsStarRE *
      sepOptRE * wsStarRE * digit2plusRE * wsStarRE * sepOptRE *
      reOpt (intlTailPieceRE * reOpt (intlTailPieceRE * reOpt intlTailPieceRE)))

/-- PHONE pattern from the source.  The source places a word boundary right
after the last four digits of the US branch; in that position the boundary
holds exactly when the string ends there or continues with a non-word
character, so for the US branch the optional extension group must begin with
at least one whitespace character, while for the international branch (which
has no boundary) the extension whitespace stays optional. -/
def phoneRE : RE :=
  phoneUSCoreRE * reOpt (wsPlusRE * extCoreRE) +
    phoneIntlCoreRE * reOpt (wsStarRE * extCoreRE)

/-- Regex test as the source applies it in checkDataType: every pattern there
is anchored at both ends, so the test is a whole-string match of the coerced
value. -/
def reTest (r : RE) (s : String) : Bool := r.rmatch s.data

/-- Verdict variable of checkDataType: true when the value is exempt (the
switch is skipped and valid keeps its initial value), otherwise the outcome
of the switch on the data type: strict boolean identity for BL, the
transcribed pattern for the regex-checked types, true for every other tag
(the default case). -/
def dataTypeOk (dataType : String) (value : JSValue) : Bool :=
  if isExempt value then true
  else if dataType = "BL" then value == .bool true || value == .bool false
  else if dataType = "INT" then reTest intRE (jsToString value)
  else if dataType = "REAL" then reTest realRE (jsToString value)
  else if dataType = "PHONE" then reTest phoneRE (jsToString value)
  else if dataType = "EMAIL" then reTest emailRE (jsToString value)
  else if dataType = "URL" then reTest urlRE (jsToString value)
  else if dataType = "TM" then reTest tmRE (jsToString value)
  else if dataType = "YEAR" then reTest yearRE (jsToString value)
  else if dataType = "MONTH" then reTest monthRE (jsToString value)
  else if dataType = "DAY" then reTest dayRE (jsToString value)
  else true

/-- Translation of checkDataType: the verdict is dataTypeOk, and on failure
the message-table entry for the tag is appended to the caller's list (the
entry exists for every tag that can fail; the source would push undefined
for the others, modelled by the fallback string).  The source guards the
push on the error argument being an array; the embedding types it as a
list, so that guard is identically true. -/
def checkDataType (dataType : String) (value : JSValue) (errors : List String) :
    Bool × List String :=
  if dataTypeOk dataType value then (true, errors)
  else (false, errors ++ [(errorMessages dataType).getD "undefined"])

/-- Escape classes recognized by the pattern-restriction parser. -/
def escClass (c : Char) : Option (List Char) :=
  if c = 'd' then some digitChars
  else if c = 's' then some jsWsChars
  else if c = 'w' then some wordChars
  else none

/-- Characters an escape makes literal for the pattern-restriction parser;
assertion and negated-class escapes are outside the modelled subset. -/
def escLiteral (c : Char) : Option Char :=
  if c = 'n' then some '\n'
  else if c = 't' then some '\t'
  else if c = 'r' then some '\r'
  else if c = 'f' then some '\x0C'
  else if c = 'v' then some '\x0B'
  else if c.isAlpha || c.isDigit then none
  else some c

/-- Parser for a bracket class body (negated classes and unsupported escapes
are outside the modelled subset); returns the member characters and the
input left after the closing bracket. -/
def parseClassBody : Nat → List Char → Option (List Char × List Char)
  | 0, _ => none
  | _ + 1, [] => none
  | fuel + 1, c :: cs =>
    if c = ']' then some ([], cs)
    else if c = '\\' then
      match cs with
      | [] => none
      | e :: cs2 =>
        match escClass e with
        | some set =>
          match parseClassBody fuel cs2 with
          | some (l, rest) => some (set ++ l, rest)
          | none => none
        | none =>
          match escLiteral e with
          | some lit =>
            match parseClassBody fuel cs2 with
            | some (l, rest) => some (lit :: l, rest)
            | none => none
          | none => none
    else if c = '^' then none
    else
      match cs with
      | '-' :: b :: cs2 =>
        if b = ']' then some ([c, '-'], cs2)
        else if c.toNat ≤ b.toNat then
          match parseClassBody fuel cs2 with
          | some (l, rest) => some (charRange c b ++ l, rest)
          | none => none
        else none
      | _ =>
        match parseClassBody fuel cs with
        | some (l, rest) => some (c :: l, rest)
        | none => none

/-- Recursive-descent parser for a subset of JS regex syntax (literals,
escapes, classes, groups, alternation, the three postfix quantifiers);
mode zero parses an alternation, mode one a concatenation, any other mode a
single atom with its postfix quantifier.  Inner anchors, dot, braces,
backreferences and lookaround are outside the modelled subset. -/
def parseRE : Nat → Nat → List Char → Option (RE × List Char)
  | 0, _, _ => none
  | fuel + 1, 0, cs =>
    match parseRE fuel 1 cs with
    | some (r, '|' :: rest) =>
      match parseRE fuel 0 rest with
      | some (r2, rest2) => some (r + r2, rest2)
      | none => none
    | some (r, rest) => some (r, rest)
    | none => none
  | fuel + 1, 1, cs =>
    match cs with
    | [] => some (1, [])
    | '|' :: _ => some (1, cs)
    | ')' :: _ => some (1, cs)
    | _ =>
      match parseRE fuel 2 cs with
      | some (r, rest) =>
        match parseRE fuel 1 rest with
        | some (r2, rest2) => some (r * r2, rest2)
        | none => none
      | none => none
  | fuel + 1, _, cs =>
    let atom : Option (RE × List Char) :=
      match cs with
      | '(' :: '?' :: ':' :: rest =>
        match parseRE fuel 0 rest with
        | some (r, ')' :: r3) => some (r, r3)
        | _ => none
      | '(' :: '?' :: _ => none
      | '(' :: rest =>
        match parseRE fuel 0 rest with
        | some (r, ')' :: r3) => some (r, r3)
        | _ => none
      | '[' :: rest =>
        match parseClassBody (rest.length + 1) rest with
        | some (l, r2) => some (charClass l, r2)
        | none => none
      | '\\' :: e :: rest =>
        match escClass e with
        | some set => some (charClass set, rest)
        | none =>
          match escLiteral e with
          | some c => some (.char c, rest)
          | none => none
      | c :: rest =>
        if c ∈ ['^', '$', '*', '+', '?', '.', '|', ')', '\x7b', '\x7d', ']', '\\'] then none
        else some (.char c, rest)
      | [] => none
    match atom with
    | some (r, '*' :: r2) => some (.star r, r2)
    | some (r, '+' :: r2) => some (r * .star r, r2)
    | some (r, '?' :: r2) => some (r + 1, r2)
    | some (r, rest) => some (r, rest)
    | none => none

/-- Search of a compiled pattern in a string according to its anchoring: a
whole match, a leading match, a trailing match, or a match of any substring
(the semantics of the JS test method). -/
def reSearch (r : RE) (cs : List Char) (aStart aEnd : Bool) : Bool :=
  if aStart && aEnd then r.rmatch cs
  else if aStart then (List.range (cs.length + 1)).any fun k => r.rmatch (cs.take k)
  else if aEnd then (List.range (cs.length + 1)).any fun k => r.rmatch (cs.drop k)
  else (List.range (cs.length + 1)).any fun i =>
    (List.range (cs.length - i + 1)).any fun j => r.rmatch ((cs.drop i).take j)

/-- Splitting a character list at every occurrence of a separator character,
the behaviour of the JS split method with a one-character separator string. -/
def splitOnChar (sep : Char) : List Char → List (List Char)
  | [] => [[]]
  | c :: rest =>
    match splitOnChar sep rest with
    | [] => [[]]
    | h :: t => if c = sep then [] :: h :: t else (c :: h) :: t

/-- Model of building a RegExp from the split pattern string and flags and
calling its test method on a string: leading caret and trailing unescaped
dollar become anchors, the body is parsed by the subset parser (a pattern
outside the subset tests as false), the i flag lowercases both the compiled
pattern and the input, and the search respects the anchors. -/
def jsRegexTest (pat flags s : String) : Bool :=
  let p := pat.data
  let aStart := p.head? = some '^'
  let p1 := if aStart then p.tail else p
  let aEnd := p1.getLast? = some '$' && p1.dropLast.getLast? ≠ some '\\'
  let p2 := if aEnd then p1.dropLast else p1
  match parseRE (3 * p2.length + 9) 0 p2 with
  | none => false
  | some (r, []) =>
    let ci := flags.data.contains 'i'
    let r1 := if ci then r.map Char.toLower else r
    let cs := if ci then s.data.map Char.toLower else s.data
    reSearch r1 cs aStart aEnd
  | some (_, _ :: _) => false

/-- Coercion of a length-property read to a JS number for the relational
length checks: a missing length is undefined, which behaves as NaN. -/
def lenNum : Option Nat → JSNum
  | some n => .fin (mkRat (Int.ofNat n) 1)
  | none => .nan

/-- JS loose equality between a length-property read and a parsed threshold,
for the exact-length check: undefined equals no number, and NaN equals
nothing. -/
def lenEq (l : Option Nat) (p : JSNum) : Bool :=
  match l, p with
  | some n, .fin q => mkRat (Int.ofNat n) 1 == q
  | _, _ => false

/-- Verdict of one restriction key on a non-exempt value, mirroring the
switch cases of checkRestrictions in source order; the unimplemented keys
totalDigits and fractionDigits and every unrecognized key always pass. -/
def restrictionOk (key keyValue : String) (value : JSValue) : Bool :=
  if key = "minExclusive" then
    JSNum.gt (parseFloatJS (jsToString value)) (parseFloatJS keyValue)
  else if key = "minInclusive" then
    JSNum.ge (parseFloatJS (jsToString value)) (parseFloatJS keyValue)
  else if key = "maxExclusive" then
    JSNum.lt (parseFloatJS (jsToString value)) (parseFloatJS keyValue)
  else if key = "maxInclusive" then
    JSNum.le (parseFloatJS (jsToString value)) (parseFloatJS keyValue)
  else if key = "totalDigits" then true
  else if key = "fractionDigits" then true
  else if key = "length" then lenEq value.lengthProp (parseIntJS keyValue)
  else if key = "maxLength" then JSNum.le (lenNum value.lengthProp) (parseIntJS keyValue)
  else if key = "minLength" then JSNum.ge (lenNum value.lengthProp) (parseIntJS keyValue)
  else if key = "pattern" then
    let parts := splitOnChar '/' keyValue.data
    jsRegexTest (String.mk ((parts.get? 1).getD "undefined".data))
      (String.mk ((parts.get? 2).getD [])) (jsToString value)
  else true

/-- Message a failing restriction key appends (never consulted for keys that
cannot fail). -/
def restrictionMsg (key keyValue : String) : String :=
  if key = "minExclusive" then "must be a value greater than " ++ keyValue ++ "."
  else if key = "minInclusive" then "must be a value greater than or equal to " ++ keyValue ++ "."
  else if key = "maxExclusive" then "must be a value less than " ++ keyValue ++ "."
  else if key = "maxInclusive" then "must be a value less than or equal to " ++ keyValue ++ "."
  else if key = "length" then "must have a total length of " ++ keyValue ++ "."
  else if key = "maxLength" then "must have a total length less than or equal to " ++ keyValue ++ "."
  else if key = "minLength" then "must have a total length greater than or equal to " ++ keyValue ++ "."
  else if key = "pattern" then "must match a RegExp pattern of " ++ keyValue ++ "."
  else ""

/-- Body of the for-in loop of checkRestrictions: one key either passes and
leaves the error list unchanged, or fails and appends its message. -/
def restrictionStep (key keyValue : String) (value : JSValue) (errors : List String) :
    Bool × List String :=
  if restrictionOk key keyValue value then (true, errors)
  else (false, errors ++ [restrictionMsg key keyValue])

/-- For-in loop of checkRestrictions, iterating the keys in order while
accumulating the conjunction allValid. -/
def checkRestrictionsLoop (restrictions : List (String × String)) (value : JSValue)
    (errors : List String) (allValid : Bool) : Bool × List String :=
  match restrictions with
  | [] => (allValid, errors)
  | (key, keyValue) :: rest =>
    let r := restrictionStep key keyValue value errors
    checkRestrictionsLoop rest value r.2 (allValid && r.1)

/-- Translation of checkRestrictions: an exempt value passes with no keys
examined; otherwise every key of the mapping is evaluated in iteration order
(JS for-in enumerates string keys in insertion order, modelled by the list
order). -/
def checkRestrictions (restrictions : List (String × String)) (value : JSValue)
    (errors : List String) : Bool × List String :=
  if isExempt value then (true, errors)
  else checkRestrictionsLoop restrictions value errors true

/-! Derived descriptions of the restriction loop, used by several claims. -/

/-- Messages generated by the failing keys of a restriction mapping, in
iteration order. -/
def failingMsgs (restrictions : List (String × String)) (value : JSValue) : List String :=
  (restrictions.filter (fun kv => !restrictionOk kv.1 kv.2 value)).map
    (fun kv => restrictionMsg kv.1 kv.2)

/-- Conjunction of the per-key verdicts of a restriction mapping. -/
def allOk (restrictions : List (String × String)) (value : JSValue) : Bool :=
  restrictions.all (fun kv => restrictionOk kv.1 kv.2 value)

/-- Unfolding of the restriction loop: the verdict is the accumulated
conjunction of the per-key verdicts and the error list grows by exactly the
failing keys' messages, in order. -/
lemma checkRestrictionsLoop_eq (value : JSValue) :
    ∀ (restrictions : List (String × String)) (errors : List String) (acc : Bool),
    checkRestrictionsLoop restrictions value errors acc =
      (acc && allOk restrictions value, errors ++ failingMsgs restrictions value) := by
  intro restrictions
  induction restrictions with
  | nil => intro errors acc; simp [checkRestrictionsLoop, allOk, failingMsgs]
  | cons kv rest ih =>
    intro errors acc
    obtain ⟨key, keyValue⟩ := kv
    by_cases h : restrictionOk key keyValue value = true
    · simp [checkRestrictionsLoop, restrictionStep, h, ih, allOk, failingMsgs,
        Bool.and_assoc]
    · simp only [Bool.not_eq_true] at h
      simp [checkRestrictionsLoop, restrictionStep, h, ih, allOk, failingMsgs,
        Bool.and_assoc]

/-- Behaviour of checkRestrictions on a non-exempt value in terms of the
per-key verdicts and messages. -/
lemma checkRestrictions_eq (restrictions : List (String × String)) (value : JSValue)
    (errors : List String) (h : isExempt value = false) :
    checkRestrictions restrictions value errors =
      (allOk restrictions value, errors ++ failingMsgs restrictions value) := by
  simp [checkRestrictions, h, checkRestrictionsLoop_eq]

/-- Emptiness condition of the required check exactly as the specification
words it: undefined, null, the empty string, an object whose text property
equals the empty string, or a collection of length zero. -/
def specEmptyValue (value : JSValue) : Prop :=
  value = .undef ∨ value = .null ∨ value = .str "" ∨
    (value.isObject = true ∧ value.textProp = some "") ∨
    (value.isArray = true ∧ value.lengthProp = some 0)

instance (value : JSValue) : Decidable (specEmptyValue value) := by
  unfold specEmptyValue; infer_instance

/-- Agreement between the boolean guard of checkRequired and the
specification-side emptiness condition. -/
lemma requiredCond_iff (required : Bool) (value : JSValue) :
    (required &&
      (value == JSValue.undef || value == JSValue.null || value == JSValue.str "" ||
       (value.isObject && value.textProp == some "") ||
       (value.isArray && value.lengthProp == some 0))) = true ↔
    required = true ∧ specEmptyValue value := by
  simp only [Bool.and_eq_true, Bool.or_eq_true, beq_iff_eq, specEmptyValue]
  tauto

/-- C3: checkRequired returns false and appends exactly the message
"requires a value" precisely when the flag is set and the value is
undefined, null, the empty string, an object whose text property equals the
empty string, or a collection of length zero; in every other case (the
number zero included, as the third conjunct records) it returns true and
appends nothing. -/
theorem checkRequired_false_iff_required_and_empty
    (required : Bool) (value : JSValue) (errors : List String) :
    (checkRequired required value errors = (false, errors ++ ["requires a value"]) ↔
      required = true ∧ specEmptyValue value) ∧
    (¬(required = true ∧ specEmptyValue value) →
      checkRequired required value errors = (true, errors)) ∧
    checkRequired true (JSValue.num 0) [] = (true, []) := by
  refine ⟨?_, ?_, by decide⟩
  · by_cases h : required = true ∧ specEmptyValue value
    · rw [checkRequired, if_pos ((requiredCond_iff required value).2 h)]
      simp [h]
    · rw [checkRequired, if_neg (fun hc => h ((requiredCond_iff required value).1 hc))]
      constructor
      · intro hc
        exact absurd (congrArg Prod.fst hc) (by simp)
      · intro hc
        exact absurd hc h
  · intro h
    rw [checkRequired, if_neg (fun hc => h ((requiredCond_iff required value).1 hc))]

/-- Closed instance of the C3 theorem at the required flag with an empty
string, discharging its hypothesis. -/
theorem checkRequired_false_iff_required_and_empty_witness :
    ¬(true = true ∧ specEmptyValue (JSValue.num 7)) ∧
    checkRequired true (JSValue.num 7) ["old"] = (true, ["old"]) :=
  ⟨by decide,
    (checkRequired_false_iff_required_and_empty true (JSValue.num 7) ["old"]).2.1 (by decide)⟩

/-- C1: a value that is undefined, null, or the empty string is exempt from
the data-type and restriction checks: for every data type and every
restriction mapping both checks return true and leave the caller's error
list untouched. -/
theorem exempt_value_skips_type_and_restriction_checks
    (dataType : String) (restrictions : List (String × String)) (value : JSValue)
    (errors : List String)
    (h : value = JSValue.undef ∨ value = JSValue.null ∨ value = JSValue.str "") :
    checkDataType dataType value errors = (true, errors) ∧
    checkRestrictions restrictions value errors = (true, errors) := by
  have he : isExempt value = true := by
    rcases h with h | h | h <;> simp [isExempt, h]
  exact ⟨by simp [checkDataType, dataTypeOk, he], by simp [checkRestrictions, he]⟩

/-- Closed instance of the C1 theorem at the INT type, a minLength
restriction, and the null value. -/
theorem exempt_value_skips_type_and_restriction_checks_witness :
    (JSValue.null = JSValue.undef ∨ JSValue.null = JSValue.null ∨
      JSValue.null = JSValue.str "") ∧
    checkDataType "INT" JSValue.null ["kept"] = (true, ["kept"]) ∧
    checkRestrictions [("minLength", "5")] JSValue.null ["kept"] = (true, ["kept"]) := by
  have h := exempt_value_skips_type_and_restriction_checks "INT" [("minLength", "5")]
    JSValue.null ["kept"] (Or.inr (Or.inl rfl))
  exact ⟨Or.inr (Or.inl rfl), h.1, h.2⟩

/-- C8: every data-type tag outside the ten with an attached rule (so in
particular DT, ST, DTM, RTO, QTY, CNE, CWE and every unrecognized tag)
makes checkDataType return true without touching the error list, whatever
the value. -/
theorem unrecognized_dataType_default_valid
    (dataType : String) (value : JSValue) (errors : List String)
    (h : dataType ∉ ["BL", "INT", "REAL", "PHONE", "EMAIL", "URL", "TM", "YEAR",
      "MONTH", "DAY"]) :
    checkDataType dataType value errors = (true, errors) := by
  simp only [List.mem_cons, List.not_mem_nil, or_false, not_or] at h
  obtain ⟨h1, h2, h3, h4, h5, h6, h7, h8, h9, h10⟩ := h
  by_cases he : isExempt value = true
  · simp [checkDataType, dataTypeOk, he]
  · simp [checkDataType, dataTypeOk, he, h1, h2, h3, h4, h5, h6, h7, h8, h9, h10]

/-- Closed instance of the C8 theorem at the DT tag (date values are handled
by a collaborator component). -/
theorem unrecognized_dataType_default_valid_witness :
    "DT" ∉ ["BL", "INT", "REAL", "PHONE", "EMAIL", "URL", "TM", "YEAR", "MONTH", "DAY"] ∧
    checkDataType "DT" (JSValue.str "not even a date") [] = (true, []) :=
  ⟨by decide, unrecognized_dataType_default_valid "DT" (JSValue.str "not even a date") []
    (by decide)⟩

/-- C9: the three check functions are deterministic and stateless across
calls.  The embedding makes each a pure function of its arguments — the
source module keeps no mutable state, its only module-level data being
constant lookup tables — so two calls with identical inputs and a fresh
empty error list yield definitionally equal verdicts and message lists. -/
theorem checks_deterministic (required : Bool) (dataType : String)
    (restrictions : List (String × String)) (value : JSValue) :
    checkRequired required value [] = checkRequired required value [] ∧
    checkDataType dataType value [] = checkDataType dataType value [] ∧
    checkRestrictions restrictions value [] = checkRestrictions restrictions value [] :=
  ⟨rfl, rfl, rfl⟩

/-- The required check only ever appends to the caller's list. -/
lemma checkRequired_frame (required : Bool) (value : JSValue) (errors : List String) :
    (checkRequired required value errors).2 = errors ++ (checkRequired required value []).2 := by
  unfold checkRequired
  split <;> simp

/-- The data-type check only ever appends to the caller's list. -/
lemma checkDataType_frame (dataType : String) (value : JSValue) (errors : List String) :
    (checkDataType dataType value errors).2 =
      errors ++ (checkDataType dataType value []).2 := by
  unfold checkDataType
  split <;> simp

/-- The restriction check only ever appends to the caller's list. -/
lemma checkRestrictions_frame (restrictions : List (String × String)) (value : JSValue)
    (errors : List String) :
    (checkRestrictions restrictions value errors).2 =
      errors ++ (checkRestrictions restrictions value []).2 := by
  by_cases h : isExempt value = true
  · simp [checkRestrictions, h]
  · simp only [Bool.not_eq_true] at h
    rw [checkRestrictions_eq _ _ _ h, checkRestrictions_eq _ _ _ h]
    simp

/-- C7: each check appends its messages at the end of the caller-supplied
list, leaving the entries already present unchanged and in place, and the
three checks run in sequence on one shared list therefore produce the
required-check message first, then the data-type message, then the failing
restrictions' messages in iteration order. -/
theorem error_messages_append_in_order
    (required : Bool) (dataType : String) (restrictions : List (String × String))
    (value : JSValue) (errors : List String) :
    ((checkRequired required value errors).2 =
      errors ++ (checkRequired required value []).2) ∧
    ((checkDataType dataType value errors).2 =
      errors ++ (checkDataType dataType value []).2) ∧
    ((checkRestrictions restrictions value errors).2 =
      errors ++ (checkRestrictions restrictions value []).2) ∧
    ((checkRestrictions restrictions value
        ((checkDataType dataType value ((checkRequired required value errors).2)).2)).2 =
      errors ++ (checkRequired required value []).2 ++ (checkDataType dataType value []).2 ++
        (checkRestrictions restrictions value []).2) := by
  refine ⟨checkRequired_frame _ _ _, checkDataType_frame _ _ _,
    checkRestrictions_frame _ _ _, ?_⟩
  rw [checkRestrictions_frame restrictions value,
    checkDataType_frame dataType value ((checkRequired required value errors).2),
    checkRequired_frame required value errors]

/-- A restriction mapping fails as a whole exactly when some key generates a
message. -/
lemma allOk_false_iff (restrictions : List (String × String)) (value : JSValue) :
    allOk restrictions value = false ↔ failingMsgs restrictions value ≠ [] := by
  induction restrictions with
  | nil => simp [allOk, failingMsgs]
  | cons kv rest ih =>
    by_cases h : restrictionOk kv.1 kv.2 value = true
    · have h1 : allOk (kv :: rest) value = allOk rest value := by
        simp [allOk, h]
      have h2 : failingMsgs (kv :: rest) value = failingMsgs rest value := by
        simp [failingMsgs, List.filter_cons, h]
      rw [h1, h2]
      exact ih
    · simp only [Bool.not_eq_true] at h
      simp [allOk, failingMsgs, List.filter_cons, h]

/-- C10: with a fresh empty error list, each check returns false exactly when
it appended at least one message; the required and data-type checks append
exactly one message on failure, and the restriction check appends exactly
one message per failing key (none when the value is exempt). -/
theorem verdict_false_iff_message_appended (required : Bool) (dataType : String)
    (restrictions : List (String × String)) (value : JSValue) :
    ((checkRequired required value []).1 = false ↔
      (checkRequired required value []).2 ≠ []) ∧
    ((checkRequired required value []).2.length =
      if (checkRequired required value []).1 then 0 else 1) ∧
    ((checkDataType dataType value []).1 = false ↔
      (checkDataType dataType value []).2 ≠ []) ∧
    ((checkDataType dataType value []).2.length =
      if (checkDataType dataType value []).1 then 0 else 1) ∧
    ((checkRestrictions restrictions value []).1 = false ↔
      (checkRestrictions restrictions value []).2 ≠ []) ∧
    ((checkRestrictions restrictions value []).2.length =
      if isExempt value then 0
      else (restrictions.filter (fun kv => !restrictionOk kv.1 kv.2 value)).length) := by
  refine ⟨?_, ?_, ?_, ?_, ?_, ?_⟩
  · unfold checkRequired; split <;> simp
  · unfold checkRequired; split <;> simp
  · unfold checkDataType; split <;> simp
  · unfold checkDataType; split <;> simp
  · by_cases h : isExempt value = true
    · simp [checkRestrictions, h]
    · simp only [Bool.not_eq_true] at h
      rw [checkRestrictions_eq _ _ _ h]
      simpa using allOk_false_iff restrictions value
  · by_cases h : isExempt value = true
    · simp [checkRestrictions, h]
    · simp only [Bool.not_eq_true] at h
      rw [checkRestrictions_eq _ _ _ h]
      simp [h, failingMsgs]

/-- C2: on a non-exempt value checkRestrictions evaluates every key of the
mapping independently in iteration order without short-circuiting — the
verdict is the conjunction of the per-key verdicts and exactly the failing
keys append their message, in order — and on the mapping minInclusive 5,
maxInclusive 10 with value 3 it returns false with exactly the minInclusive
message. -/
theorem restrictions_evaluated_independently
    (restrictions : List (String × String)) (value : JSValue) (errors : List String)
    (h : isExempt value = false) :
    checkRestrictions restrictions value errors =
      (allOk restrictions value, errors ++ failingMsgs restrictions value) ∧
    checkRestrictions [("minInclusive", "5"), ("maxInclusive", "10")] (JSValue.str "3") [] =
      (false, ["must be a value greater than or equal to 5."]) :=
  ⟨checkRestrictions_eq restrictions value errors h, by decide⟩

/-- Closed instance of the C2 theorem at the two-key mapping of its example,
discharging the non-exemption hypothesis. -/
theorem restrictions_evaluated_independently_witness :
    isExempt (JSValue.str "3") = false ∧
    checkRestrictions [("minInclusive", "5"), ("maxInclusive", "10")] (JSValue.str "3") [] =
      (allOk [("minInclusive", "5"), ("maxInclusive", "10")] (JSValue.str "3"),
        [] ++ failingMsgs [("minInclusive", "5"), ("maxInclusive", "10")] (JSValue.str "3")) :=
  ⟨by decide,
    (restrictions_evaluated_independently [("minInclusive", "5"), ("maxInclusive", "10")]
      (JSValue.str "3") [] (by decide)).1⟩

/-- Comparing any JS number below NaN yields false. -/
lemma JSNum.lt_nan_eq_false (a : JSNum) : JSNum.lt a .nan = false := by
  cases a <;> rfl

/-- Comparing NaN below any JS number yields false. -/
lemma JSNum.nan_lt_eq_false (a : JSNum) : JSNum.lt .nan a = false := by
  cases a <;> rfl

/-- Comparing NaN below-or-equal any JS number yields false. -/
lemma JSNum.nan_le_eq_false (a : JSNum) : JSNum.le .nan a = false := by
  cases a <;> rfl

/-- Comparing any JS number below-or-equal NaN yields false. -/
lemma JSNum.le_nan_eq_false (a : JSNum) : JSNum.le a .nan = false := by
  cases a <;> rfl

/-- C4: a non-exempt value whose coerced string parses to NaN fails each of
the four numeric restriction comparisons, returning false and appending the
corresponding message rather than raising — the embedding consists of total
functions, mirroring the absence of exception control flow in the module. -/
theorem malformed_numeric_value_fails_comparisons
    (value : JSValue) (kv : String) (errors : List String)
    (h : isExempt value = false)
    (hnan : parseFloatJS (jsToString value) = JSNum.nan) :
    checkRestrictions [("minExclusive", kv)] value errors =
      (false, errors ++ ["must be a value greater than " ++ kv ++ "."]) ∧
    checkRestrictions [("minInclusive", kv)] value errors =
      (false, errors ++ ["must be a value greater than or equal to " ++ kv ++ "."]) ∧
    checkRestrictions [("maxExclusive", kv)] value errors =
      (false, errors ++ ["must be a value less than " ++ kv ++ "."]) ∧
    checkRestrictions [("maxInclusive", kv)] value errors =
      (false, errors ++ ["must be a value less than or equal to " ++ kv ++ "."]) := by
  refine ⟨?_, ?_, ?_, ?_⟩ <;>
    simp [checkRestrictions_eq _ _ _ h, allOk, failingMsgs, restrictionOk, restrictionMsg,
      hnan, JSNum.gt, JSNum.ge, JSNum.lt_nan_eq_false, JSNum.le_nan_eq_false,
      JSNum.nan_lt_eq_false, JSNum.nan_le_eq_false, List.filter_cons]

/-- Closed instance of the C4 theorem at the string abc against threshold 5,
discharging both hypotheses. -/
theorem malformed_numeric_value_fails_comparisons_witness :
    isExempt (JSValue.str "abc") = false ∧
    parseFloatJS (jsToString (JSValue.str "abc")) = JSNum.nan ∧
    checkRestrictions [("minInclusive", "5")] (JSValue.str "abc") [] =
      (false, ["must be a value greater than or equal to 5."]) :=
  ⟨by decide, by decide,
    by simpa using
      (malformed_numeric_value_fails_comparisons (JSValue.str "abc") "5" []
        (by decide) (by decide)).2.1⟩

/-! Structural description of the TM pattern, for the time claim. -/

/-- Stripping JS whitespace from both ends of a character list. -/
def trimWsChars (cs : List Char) : List Char :=
  ((cs.dropWhile isJsWs).reverse.dropWhile isJsWs).reverse

/-- Numeric value of a two-digit character pair. -/
def twoDigitVal (d1 d2 : Char) : Nat := (d1.toNat - 48) * 10 + (d2.toNat - 48)

/-- Minute pair of a time: tens digit zero through five, then any digit. -/
def minutePair (m1 m2 : Char) : Bool :=
  m1.isDigit && decide (m1.toNat - 48 ≤ 5) && m2.isDigit

/-- Meridiem letters ending a 12-hour time: optional whitespace, then a or p
in either case, then m in either case, and nothing after. -/
def ampmEnd (tail : List Char) : Bool :=
  match tail.dropWhile isJsWs with
  | [a, m] => (a == 'a' || a == 'A' || a == 'p' || a == 'P') && (m == 'm' || m == 'M')
  | _ => false

/-- Minutes then meridiem, the tail of a 12-hour time after the colon. -/
def minuteAmpmTail (rest : List Char) : Bool :=
  match rest with
  | m1 :: m2 :: tail => minutePair m1 m2 && ampmEnd tail
  | _ => false

/-- Shape accepted by the 24-hour branch of the TM pattern: a one-digit hour
or a two-digit hour of value at most twenty-four, a colon, and a minute
pair. -/
def time24Code (t : List Char) : Bool :=
  match t with
  | [h, c, m1, m2] => c == ':' && h.isDigit && minutePair m1 m2
  | [h1, h2, c, m1, m2] =>
    c == ':' && h1.isDigit && h2.isDigit && decide (twoDigitVal h1 h2 ≤ 24) &&
      minutePair m1 m2
  | _ => false

/-- Shape accepted by the 12-hour branch of the TM pattern: a one-digit hour
or a two-digit hour of value at most twelve, a colon, a minute pair,
optional whitespace and the meridiem letters. -/
def time12Code (t : List Char) : Bool :=
  match t with
  | h :: c :: rest =>
    (c == ':' && h.isDigit && minuteAmpmTail rest) ||
      (match rest with
       | c2 :: rest2 =>
         c2 == ':' && h.isDigit && c.isDigit && decide (twoDigitVal h c ≤ 12) &&
           minuteAmpmTail rest2
       | [] => false)
  | _ => false

/-- Shape of a string the TM pattern accepts, stated structurally: optional
surrounding whitespace around either branch shape. -/
def timeShapeCode (s : String) : Bool :=
  time24Code (trimWsChars s.data) || time12Code (trimWsChars s.data)

/-- Shape of a 24-hour clock time as the specification words it: hour zero
through twenty-three (one digit or two digits), colon, minutes zero through
fifty-nine. -/
def time24Spec (t : List Char) : Bool :=
  match t with
  | [h, c, m1, m2] => c == ':' && h.isDigit && minutePair m1 m2
  | [h1, h2, c, m1, m2] =>
    c == ':' && h1.isDigit && h2.isDigit && decide (twoDigitVal h1 h2 ≤ 23) &&
      minutePair m1 m2
  | _ => false

/-- Shape of a 12-hour clock time as the specification words it: hour one
through twelve, colon, minutes, optional whitespace, meridiem letters. -/
def time12Spec (t : List Char) : Bool :=
  match t with
  | h :: c :: rest =>
    (c == ':' && h.isDigit && decide (1 ≤ h.toNat - 48) && minuteAmpmTail rest) ||
      (match rest with
       | c2 :: rest2 =>
         c2 == ':' && h.isDigit && c.isDigit && decide (1 ≤ twoDigitVal h c) &&
           decide (twoDigitVal h c ≤ 12) && minuteAmpmTail rest2
       | [] => false)
  | _ => false

/-- Time shape exactly as the claim words it: a 24-hour H:MM or HH:MM time or
a 12-hour H:MM time with meridiem, optionally surrounded by whitespace. -/
def timeShapeSpec (s : String) : Bool :=
  time24Spec (trimWsChars s.data) || time12Spec (trimWsChars s.data)

/-- Bounds on the code of a digit character. -/
lemma digit_toNat_bounds (c : Char) (h : c.isDigit = true) :
    48 ≤ c.toNat ∧ c.toNat ≤ 57 := by
  simp [Char.isDigit, Char.le_def, UInt32.le_def] at h
  exact h

/-- Enumeration of the decimal digit characters. -/
lemma digit_enum (c : Char) (h : c.isDigit = true) :
    c = '0' ∨ c = '1' ∨ c = '2' ∨ c = '3' ∨ c = '4' ∨ c = '5' ∨ c = '6' ∨
      c = '7' ∨ c = '8' ∨ c = '9' := by
  obtain ⟨h1, h2⟩ := digit_toNat_bounds c h
  have hc : c.toNat = 48 ∨ c.toNat = 49 ∨ c.toNat = 50 ∨ c.toNat = 51 ∨ c.toNat = 52 ∨
      c.toNat = 53 ∨ c.toNat = 54 ∨ c.toNat = 55 ∨ c.toNat = 56 ∨ c.toNat = 57 := by
    omega
  rcases hc with h' | h' | h' | h' | h' | h' | h' | h' | h' | h' <;>
    rw [← Char.ofNat_toNat c, h'] <;> decide

/-- A digit character is not JS whitespace. -/
lemma digit_not_ws (c : Char) (h : c.isDigit = true) : isJsWs c = false := by
  rcases digit_enum c h with h' | h' | h' | h' | h' | h' | h' | h' | h' | h' <;>
    subst h' <;> decide

/-- Matching a character class means being one of its member characters. -/
lemma charClass_rmatch_iff (l x : List Char) :
    (charClass l).rmatch x = true ↔ ∃ c ∈ l, x = [c] := by
  induction l with
  | nil =>
    rw [show charClass [] = 0 from rfl]
    simp [RegularExpression.zero_rmatch]
  | cons a t ih =>
    rw [show charClass (a :: t) = RegularExpression.char a + charClass t from rfl,
      RegularExpression.add_rmatch_iff, RegularExpression.char_rmatch_iff, ih]
    constructor
    · rintro (rfl | ⟨c, hc, rfl⟩)
      · exact ⟨a, by simp⟩
      · exact ⟨c, by simp [hc]⟩
    · rintro ⟨c, hc, rfl⟩
      rcases List.mem_cons.1 hc with rfl | hct
      · exact Or.inl rfl
      · exact Or.inr ⟨c, hct, rfl⟩

/-- Flattening a list of singletons gives the original list. -/
lemma flatten_singletons (x : List Char) : (x.map (fun c => [c])).flatten = x := by
  induction x <;> simp [*]

/-- Membership form of the JS whitespace test. -/
lemma isJsWs_iff_mem (c : Char) : isJsWs c = true ↔ c ∈ jsWsChars := by
  simp [isJsWs]

/-- Matching the whitespace-star piece means consisting of whitespace. -/
lemma wsStar_rmatch_iff (x : List Char) :
    wsStarRE.rmatch x = true ↔ ∀ c ∈ x, isJsWs c = true := by
  rw [wsStarRE, RegularExpression.star_rmatch_iff]
  constructor
  · rintro ⟨S, rfl, hS⟩ c hc
    rw [List.mem_flatten] at hc
    obtain ⟨t, ht, hct⟩ := hc
    obtain ⟨-, hmt⟩ := hS t ht
    rw [charClass_rmatch_iff] at hmt
    obtain ⟨d, hd, rfl⟩ := hmt
    rw [List.mem_singleton] at hct
    subst hct
    exact (isJsWs_iff_mem c).2 hd
  · intro h
    refine ⟨x.map (fun c => [c]), (flatten_singletons x).symm, ?_⟩
    intro t ht
    rw [List.mem_map] at ht
    obtain ⟨c, hc, rfl⟩ := ht
    exact ⟨by simp, (charClass_rmatch_iff _ _).2 ⟨c, (isJsWs_iff_mem c).1 (h c hc), rfl⟩⟩

/-- Matching a single digit. -/
lemma digitRE_rmatch_iff (x : List Char) :
    digitRE.rmatch x = true ↔ ∃ d, x = [d] ∧ d.isDigit = true := by
  rw [digitRE, charClass_rmatch_iff]
  constructor
  · rintro ⟨c, hc, rfl⟩
    refine ⟨c, rfl, ?_⟩
    have : digitChars = ['0', '1', '2', '3', '4', '5', '6', '7', '8', '9'] := by decide
    rw [this] at hc
    simp only [List.mem_cons, List.not_mem_nil, or_false] at hc
    rcases hc with h | h | h | h | h | h | h | h | h | h <;> subst h <;> decide
  · rintro ⟨d, rfl, hd⟩
    refine ⟨d, ?_, rfl⟩
    have : digitChars = ['0', '1', '2', '3', '4', '5', '6', '7', '8', '9'] := by decide
    rw [this]
    rcases digit_enum d hd with h | h | h | h | h | h | h | h | h | h <;> subst h <;> decide

/-- Characters zero through five, by digit value. -/
lemma mem05_conv (c : Char) (hc : c ∈ ['0', '1', '2', '3', '4', '5']) :
    c.isDigit = true ∧ c.toNat - 48 ≤ 5 := by
  simp only [List.mem_cons, List.not_mem_nil, or_false] at hc
  rcases hc with rfl | rfl | rfl | rfl | rfl | rfl <;> exact ⟨by decide, by decide⟩

/-- Digit characters of value at most five. -/
lemma mem05_of (c : Char) (h1 : c.isDigit = true) (h2 : c.toNat - 48 ≤ 5) :
    c ∈ ['0', '1', '2', '3', '4', '5'] := by
  rcases digit_enum c h1 with rfl | rfl | rfl | rfl | rfl | rfl | rfl | rfl | rfl | rfl <;>
    first
    | decide
    | exact absurd h2 (by decide)

/-- Value form of the minute pair test. -/
lemma minutePair_iff (m1 m2 : Char) :
    minutePair m1 m2 = true ↔ m1 ∈ ['0', '1', '2', '3', '4', '5'] ∧ m2.isDigit = true := by
  unfold minutePair
  simp only [Bool.and_eq_true, decide_eq_true_eq]
  constructor
  · rintro ⟨⟨h1, h2⟩, h3⟩
    exact ⟨mem05_of m1 h1 h2, h3⟩
  · rintro ⟨h1, h2⟩
    obtain ⟨ha, hb⟩ := mem05_conv m1 h1
    exact ⟨⟨ha, hb⟩, h2⟩

/-- Matching the minute piece of the time pattern. -/
lemma minute_rmatch_iff (x : List Char) :
    minuteRE.rmatch x = true ↔ ∃ m1 m2, x = [m1, m2] ∧ minutePair m1 m2 = true := by
  rw [minuteRE, RegularExpression.mul_rmatch_iff]
  constructor
  · rintro ⟨t, u, rfl, ht, hu⟩
    rw [charClass_rmatch_iff] at ht
    obtain ⟨c, hc, rfl⟩ := ht
    rw [digitRE_rmatch_iff] at hu
    obtain ⟨d, rfl, hd⟩ := hu
    exact ⟨c, d, rfl, (minutePair_iff c d).2 ⟨hc, hd⟩⟩
  · rintro ⟨m1, m2, rfl, hm⟩
    obtain ⟨h1, h2⟩ := (minutePair_iff m1 m2).1 hm
    exact ⟨[m1], [m2], rfl, (charClass_rmatch_iff _ _).2 ⟨m1, h1, rfl⟩,
      (digitRE_rmatch_iff _).2 ⟨m2, rfl, h2⟩⟩

/-- Matching the meridiem piece of the time pattern. -/
lemma ampm_rmatch_iff (x : List Char) :
    ampmRE.rmatch x = true ↔
      ∃ a m, x = [a, m] ∧
        ((a == 'a' || a == 'A' || a == 'p' || a == 'P') && (m == 'm' || m == 'M')) = true := by
  rw [ampmRE, RegularExpression.mul_rmatch_iff]
  constructor
  · rintro ⟨t, u, rfl, ht, hu⟩
    rw [charClass_rmatch_iff] at ht
    obtain ⟨a, ha, rfl⟩ := ht
    rw [charClass_rmatch_iff] at hu
    obtain ⟨m, hm, rfl⟩ := hu
    refine ⟨a, m, rfl, ?_⟩
    simp only [List.mem_cons, List.not_mem_nil, or_false] at ha hm
    rcases ha with rfl | rfl | rfl | rfl <;> rcases hm with rfl | rfl <;> decide
  · rintro ⟨a, m, rfl, h⟩
    simp only [Bool.and_eq_true, Bool.or_eq_true, beq_iff_eq] at h
    obtain ⟨ha, hm⟩ := h
    have ha2 : a = 'a' ∨ a = 'A' ∨ a = 'p' ∨ a = 'P' := by tauto
    refine ⟨[a], [m], rfl, (charClass_rmatch_iff _ _).2 ⟨a, ?_, rfl⟩,
      (charClass_rmatch_iff _ _).2 ⟨m, ?_, rfl⟩⟩
    · rcases ha2 with rfl | rfl | rfl | rfl <;> decide
    · rcases hm with rfl | rfl <;> decide

/-- Matching the hour alternatives of the 24-hour branch. -/
lemma hour24_rmatch_iff (x : List Char) :
    hour24RE.rmatch x = true ↔
      (∃ d, x = [d] ∧ d.isDigit = true) ∨
      (∃ d1 d2, x = [d1, d2] ∧ d1.isDigit = true ∧ d2.isDigit = true ∧
        twoDigitVal d1 d2 ≤ 24) := by
  rw [hour24RE, RegularExpression.add_rmatch_iff, RegularExpression.add_rmatch_iff]
  constructor
  · rintro ((h | h) | h)
    · exact Or.inl ((digitRE_rmatch_iff x).1 h)
    · rw [RegularExpression.mul_rmatch_iff] at h
      obtain ⟨t, u, rfl, ht, hu⟩ := h
      rw [charClass_rmatch_iff] at ht
      obtain ⟨c, hc, rfl⟩ := ht
      rw [digitRE_rmatch_iff] at hu
      obtain ⟨d, rfl, hd⟩ := hu
      obtain ⟨hb1, hb2⟩ := digit_toNat_bounds d hd
      simp only [List.mem_cons, List.not_mem_nil, or_false] at hc
      refine Or.inr ⟨c, d, rfl, ?_, hd, ?_⟩
      · rcases hc with rfl | rfl <;> decide
      · rcases hc with rfl | rfl
        · have h0 : ('0' : Char).toNat = 48 := rfl
          unfold twoDigitVal
          rw [h0]
          omega
        · have h0 : ('1' : Char).toNat = 49 := rfl
          unfold twoDigitVal
          rw [h0]
          omega
    · rw [RegularExpression.mul_rmatch_iff] at h
      obtain ⟨t, u, rfl, ht, hu⟩ := h
      rw [RegularExpression.char_rmatch_iff] at ht
      subst ht
      rw [charClass_rmatch_iff] at hu
      obtain ⟨c, hc, rfl⟩ := hu
      simp only [List.mem_cons, List.not_mem_nil, or_false] at hc
      refine Or.inr ⟨'2', c, rfl, by decide, ?_, ?_⟩
      · rcases hc with rfl | rfl | rfl | rfl | rfl <;> decide
      · rcases hc with rfl | rfl | rfl | rfl | rfl <;> decide
  · rintro (⟨d, rfl, hd⟩ | ⟨d1, d2, rfl, hd1, hd2, hval⟩)
    · exact Or.inl (Or.inl ((digitRE_rmatch_iff _).2 ⟨d, rfl, hd⟩))
    · obtain ⟨hb3, hb4⟩ := digit_toNat_bounds d2 hd2
      have hsplit : ([d1, d2] : List Char) = [d1] ++ [d2] := rfl
      rcases digit_enum d1 hd1 with rfl | rfl | rfl | rfl | rfl | rfl | rfl | rfl | rfl | rfl
      · exact Or.inl (Or.inr ((RegularExpression.mul_rmatch_iff _ _ _).2
          ⟨['0'], [d2], rfl, (charClass_rmatch_iff _ _).2 ⟨'0', by decide, rfl⟩,
            (digitRE_rmatch_iff _).2 ⟨d2, rfl, hd2⟩⟩))
      · exact Or.inl (Or.inr ((RegularExpression.mul_rmatch_iff _ _ _).2
          ⟨['1'], [d2], rfl, (charClass_rmatch_iff _ _).2 ⟨'1', by decide, rfl⟩,
            (digitRE_rmatch_iff _).2 ⟨d2, rfl, hd2⟩⟩))
      · refine Or.inr ((RegularExpression.mul_rmatch_iff _ _ _).2
          ⟨['2'], [d2], rfl, (RegularExpression.char_rmatch_iff _ _).2 rfl,
            (charClass_rmatch_iff _ _).2 ⟨d2, ?_, rfl⟩⟩)
        have h0 : ('2' : Char).toNat = 50 := rfl
        unfold twoDigitVal at hval
        rw [h0] at hval
        rcases digit_enum d2 hd2 with rfl | rfl | rfl | rfl | rfl | rfl | rfl | rfl | rfl | rfl <;>
          first
          | decide
          | (exfalso; revert hval; decide)
      all_goals
        exfalso
        rcases digit_enum d2 hd2 with rfl | rfl | rfl | rfl | rfl | rfl | rfl | rfl | rfl | rfl <;>
          revert hval <;> decide

/-- Matching the hour alternatives of the 12-hour branch. -/
lemma hour12_rmatch_iff (x : List Char) :
    hour12RE.rmatch x = true ↔
      (∃ d, x = [d] ∧ d.isDigit = true) ∨
      (∃ d1 d2, x = [d1, d2] ∧ d1.isDigit = true ∧ d2.isDigit = true ∧
        twoDigitVal d1 d2 ≤ 12) := by
  rw [hour12RE, RegularExpression.add_rmatch_iff, RegularExpression.add_rmatch_iff]
  constructor
  · rintro ((h | h) | h)
    · exact Or.inl ((digitRE_rmatch_iff x).1 h)
    · rw [RegularExpression.mul_rmatch_iff] at h
      obtain ⟨t, u, rfl, ht, hu⟩ := h
      rw [RegularExpression.char_rmatch_iff] at ht
      subst ht
      rw [digitRE_rmatch_iff] at hu
      obtain ⟨d, rfl, hd⟩ := hu
      obtain ⟨hb1, hb2⟩ := digit_toNat_bounds d hd
      refine Or.inr ⟨'0', d, rfl, by decide, hd, ?_⟩
      have h0 : ('0' : Char).toNat = 48 := rfl
      unfold twoDigitVal
      rw [h0]
      omega
    · rw [RegularExpression.mul_rmatch_iff] at h
      obtain ⟨t, u, rfl, ht, hu⟩ := h
      rw [RegularExpression.char_rmatch_iff] at ht
      subst ht
      rw [charClass_rmatch_iff] at hu
      obtain ⟨c, hc, rfl⟩ := hu
      simp only [List.mem_cons, List.not_mem_nil, or_false] at hc
      refine Or.inr ⟨'1', c, rfl, by decide, ?_, ?_⟩
      · rcases hc with rfl | rfl | rfl <;> decide
      · rcases hc with rfl | rfl | rfl <;> decide
  · rintro (⟨d, rfl, hd⟩ | ⟨d1, d2, rfl, hd1, hd2, hval⟩)
    · exact Or.inl (Or.inl ((digitRE_rmatch_iff _).2 ⟨d, rfl, hd⟩))
    · obtain ⟨hb3, hb4⟩ := digit_toNat_bounds d2 hd2
      rcases digit_enum d1 hd1 with rfl | rfl | rfl | rfl | rfl | rfl | rfl | rfl | rfl | rfl
      · exact Or.inl (Or.inr ((RegularExpression.mul_rmatch_iff _ _ _).2
          ⟨['0'], [d2], rfl, (RegularExpression.char_rmatch_iff _ _).2 rfl,
            (digitRE_rmatch_iff _).2 ⟨d2, rfl, hd2⟩⟩))
      · refine Or.inr ((RegularExpression.mul_rmatch_iff _ _ _).2
          ⟨['1'], [d2], rfl, (RegularExpression.char_rmatch_iff _ _).2 rfl,
            (charClass_rmatch_iff _ _).2 ⟨d2, ?_, rfl⟩⟩)
        have h0 : ('1' : Char).toNat = 49 := rfl
        unfold twoDigitVal at hval
        rw [h0] at hval
        rcases digit_enum d2 hd2 with rfl | rfl | rfl | rfl | rfl | rfl | rfl | rfl | rfl | rfl <;>
          first
          | decide
          | (exfalso; revert hval; decide)
      all_goals
        exfalso
        rcases digit_enum d2 hd2 with rfl | rfl | rfl | rfl | rfl | rfl | rfl | rfl | rfl | rfl <;>
          revert hval <;> decide

/-- Dropping whitespace from a whitespace run followed by anything starting
with a non-whitespace character uncovers exactly that remainder. -/
lemma dropWhile_ws_concat (w rest : List Char) (hw : ∀ c ∈ w, isJsWs c = true)
    (hr : ∀ c, rest.head? = some c → isJsWs c = false) :
    (w ++ rest).dropWhile isJsWs = rest := by
  rw [List.dropWhile_append]
  have hwnil : w.dropWhile isJsWs = [] := List.dropWhile_eq_nil_iff.2 hw
  rcases rest with _ | ⟨c, rest⟩
  · simp [hwnil]
  · have hc := hr c rfl
    simp [hwnil, List.dropWhile_cons, hc]

/-- Trimming whitespace around a block whose first and last characters are
not whitespace recovers the block. -/
lemma trimWs_concat (w1 core w2 : List Char) (h1 : ∀ c ∈ w1, isJsWs c = true)
    (h2 : ∀ c ∈ w2, isJsWs c = true)
    (hhd : ∀ c, core.head? = some c → isJsWs c = false)
    (hlast : ∀ c, core.getLast? = some c → isJsWs c = false) :
    trimWsChars (w1 ++ (core ++ w2)) = core := by
  rcases core with _ | ⟨c0, core'⟩
  · have hall : ∀ c ∈ w1 ++ ([] ++ w2), isJsWs c = true := by
      intro c hc
      rcases List.mem_append.1 hc with h | h
      · exact h1 c h
      · exact h2 c (by simpa using h)
    unfold trimWsChars
    rw [List.dropWhile_eq_nil_iff.2 hall]
    rfl
  · unfold trimWsChars
    rw [dropWhile_ws_concat w1 ((c0 :: core') ++ w2) h1
      (by intro c hc; simp only [List.cons_append, List.head?_cons, Option.some.injEq] at hc
          exact hc ▸ hhd c0 rfl)]
    rw [show (c0 :: core') ++ w2 = (c0 :: core') ++ w2 from rfl, List.reverse_append]
    rw [dropWhile_ws_concat w2.reverse (c0 :: core').reverse
      (by intro c hc; exact h2 c (List.mem_reverse.1 hc))
      (by intro c hc
          rw [List.head?_reverse] at hc
          exact hlast c hc)]
    exact List.reverse_reverse _

/-- Decomposition of a character list around its whitespace-trimmed core. -/
lemma trim_split (cs : List Char) :
    ∃ w1 w2, cs = w1 ++ (trimWsChars cs ++ w2) ∧
      (∀ c ∈ w1, isJsWs c = true) ∧ (∀ c ∈ w2, isJsWs c = true) := by
  refine ⟨cs.takeWhile isJsWs, ((cs.dropWhile isJsWs).reverse.takeWhile isJsWs).reverse,
    ?_, ?_, ?_⟩
  · unfold trimWsChars
    conv_lhs => rw [← List.takeWhile_append_dropWhile (p := isJsWs) (l := cs)]
    congr 1
    conv_lhs => rw [← List.reverse_reverse (cs.dropWhile isJsWs),
      ← List.takeWhile_append_dropWhile (p := isJsWs) (l := (cs.dropWhile isJsWs).reverse),
      List.reverse_append]
  · intro c hc
    exact List.mem_takeWhile_imp hc
  · intro c hc
    rw [List.mem_reverse] at hc
    exact List.mem_takeWhile_imp hc

/-- Meridiem first letters are not whitespace. -/
lemma ampm_first_not_ws (a : Char)
    (h : (a == 'a' || a == 'A' || a == 'p' || a == 'P') = true) : isJsWs a = false := by
  simp only [Bool.or_eq_true, beq_iff_eq] at h
  have h2 : a = 'a' ∨ a = 'A' ∨ a = 'p' ∨ a = 'P' := by tauto
  rcases h2 with rfl | rfl | rfl | rfl <;> decide

/-- Meridiem second letters are not whitespace. -/
lemma ampm_second_not_ws (m : Char) (h : (m == 'm' || m == 'M') = true) :
    isJsWs m = false := by
  simp only [Bool.or_eq_true, beq_iff_eq] at h
  rcases h with rfl | rfl <;> decide

/-- Building the meridiem-end test from its pieces. -/
lemma ampmEnd_build (w : List Char) (a m : Char) (hw : ∀ c ∈ w, isJsWs c = true)
    (ham : ((a == 'a' || a == 'A' || a == 'p' || a == 'P') && (m == 'm' || m == 'M')) = true) :
    ampmEnd (w ++ [a, m]) = true := by
  unfold ampmEnd
  rw [dropWhile_ws_concat w [a, m] hw
    (by intro c hc
        simp only [List.head?_cons, Option.some.injEq] at hc
        subst hc
        exact ampm_first_not_ws a (by simp only [Bool.and_eq_true] at ham; exact ham.1))]
  exact ham

/-- Decomposing a successful meridiem-end test. -/
lemma ampmEnd_elim (tail : List Char) (h : ampmEnd tail = true) :
    ∃ w a m, tail = w ++ [a, m] ∧ (∀ c ∈ w, isJsWs c = true) ∧
      ((a == 'a' || a == 'A' || a == 'p' || a == 'P') && (m == 'm' || m == 'M')) = true := by
  unfold ampmEnd at h
  rcases hd : tail.dropWhile isJsWs with _ | ⟨a, _ | ⟨m, _ | ⟨x, r⟩⟩⟩ <;> rw [hd] at h
  · exact absurd h (by simp)
  · exact absurd h (by simp)
  · refine ⟨tail.takeWhile isJsWs, a, m, ?_, ?_, h⟩
    · rw [← hd]
      exact (List.takeWhile_append_dropWhile _ _).symm
    · intro c hc
      exact List.mem_takeWhile_imp hc
  · exact absurd h (by simp)

/-- Building the 24-hour shape with a one-digit hour. -/
lemma time24Code_build1 (d m1 m2 : Char) (hd : d.isDigit = true)
    (hm : minutePair m1 m2 = true) : time24Code [d, ':', m1, m2] = true := by
  simp [time24Code, hd, hm]

/-- Building the 24-hour shape with a two-digit hour. -/
lemma time24Code_build2 (d1 d2 m1 m2 : Char) (hd1 : d1.isDigit = true)
    (hd2 : d2.isDigit = true) (hval : twoDigitVal d1 d2 ≤ 24)
    (hm : minutePair m1 m2 = true) : time24Code [d1, d2, ':', m1, m2] = true := by
  simp [time24Code, hd1, hd2, hval, hm]

/-- Decomposing the 24-hour shape. -/
lemma time24Code_elim (t : List Char) (h : time24Code t = true) :
    (∃ d m1 m2, t = [d, ':', m1, m2] ∧ d.isDigit = true ∧ minutePair m1 m2 = true) ∨
    (∃ d1 d2 m1 m2, t = [d1, d2, ':', m1, m2] ∧ d1.isDigit = true ∧ d2.isDigit = true ∧
      twoDigitVal d1 d2 ≤ 24 ∧ minutePair m1 m2 = true) := by
  rcases t with _ | ⟨x1, _ | ⟨x2, _ | ⟨x3, _ | ⟨x4, _ | ⟨x5, _ | ⟨x6, t⟩⟩⟩⟩⟩⟩
  · exact absurd h (by simp [time24Code])
  · exact absurd h (by simp [time24Code])
  · exact absurd h (by simp [time24Code])
  · exact absurd h (by simp [time24Code])
  · simp only [time24Code, Bool.and_eq_true, beq_iff_eq] at h
    obtain ⟨⟨rfl, hd⟩, hm⟩ := h
    exact Or.inl ⟨x1, x3, x4, rfl, hd, hm⟩
  · simp only [time24Code, Bool.and_eq_true, beq_iff_eq, decide_eq_true_eq] at h
    obtain ⟨⟨⟨⟨rfl, hd1⟩, hd2⟩, hval⟩, hm⟩ := h
    exact Or.inr ⟨x1, x2, x4, x5, rfl, hd1, hd2, hval, hm⟩
  · exact absurd h (by simp [time24Code])

/-- Building the 12-hour shape with a one-digit hour. -/
lemma time12Code_build1 (d m1 m2 : Char) (tail : List Char) (hd : d.isDigit = true)
    (hm : minutePair m1 m2 = true) (ht : ampmEnd tail = true) :
    time12Code (d :: ':' :: m1 :: m2 :: tail) = true := by
  simp [time12Code, minuteAmpmTail, hd, hm, ht]

/-- Building the 12-hour shape with a two-digit hour. -/
lemma time12Code_build2 (d1 d2 m1 m2 : Char) (tail : List Char) (hd1 : d1.isDigit = true)
    (hd2 : d2.isDigit = true) (hval : twoDigitVal d1 d2 ≤ 12)
    (hm : minutePair m1 m2 = true) (ht : ampmEnd tail = true) :
    time12Code (d1 :: d2 :: ':' :: m1 :: m2 :: tail) = true := by
  simp [time12Code, minuteAmpmTail, hd1, hd2, hval, hm, ht]

/-- Decomposing the 12-hour shape. -/
lemma time12Code_elim (t : List Char) (h : time12Code t = true) :
    (∃ d m1 m2 tail, t = d :: ':' :: m1 :: m2 :: tail ∧ d.isDigit = true ∧
      minutePair m1 m2 = true ∧ ampmEnd tail = true) ∨
    (∃ d1 d2 m1 m2 tail, t = d1 :: d2 :: ':' :: m1 :: m2 :: tail ∧ d1.isDigit = true ∧
      d2.isDigit = true ∧ twoDigitVal d1 d2 ≤ 12 ∧ minutePair m1 m2 = true ∧
      ampmEnd tail = true) := by
  rcases t with _ | ⟨x1, _ | ⟨x2, rest⟩⟩
  · exact absurd h (by simp [time12Code])
  · exact absurd h (by simp [time12Code])
  · unfold time12Code at h
    rw [Bool.or_eq_true] at h
    rcases h with h | h
    · simp only [Bool.and_eq_true, beq_iff_eq] at h
      obtain ⟨⟨rfl, hd⟩, hm⟩ := h
      rcases rest with _ | ⟨m1, _ | ⟨m2, tail⟩⟩
      · exact absurd hm (by simp [minuteAmpmTail])
      · exact absurd hm (by simp [minuteAmpmTail])
      · simp only [minuteAmpmTail, Bool.and_eq_true] at hm
        exact Or.inl ⟨x1, m1, m2, tail, rfl, hd, hm.1, hm.2⟩
    · rcases rest with _ | ⟨x3, rest2⟩
      · exact absurd h (by simp)
      · simp only [Bool.and_eq_true, beq_iff_eq, decide_eq_true_eq] at h
        obtain ⟨⟨⟨⟨rfl, hd1⟩, hd2⟩, hval⟩, hm⟩ := h
        rcases rest2 with _ | ⟨m1, _ | ⟨m2, tail⟩⟩
        · exact absurd hm (by simp [minuteAmpmTail])
        · exact absurd hm (by simp [minuteAmpmTail])
        · simp only [minuteAmpmTail, Bool.and_eq_true] at hm
          exact Or.inr ⟨x1, x2, m1, m2, tail, rfl, hd1, hd2, hval, hm.1, hm.2⟩

/-- The 24-hour shape begins and ends with non-whitespace characters. -/
lemma time24Code_ends (t : List Char) (h : time24Code t = true) :
    t ≠ [] ∧ (∀ c, t.head? = some c → isJsWs c = false) ∧
      (∀ c, t.getLast? = some c → isJsWs c = false) := by
  rcases time24Code_elim t h with ⟨d, m1, m2, rfl, hd, hm⟩ |
    ⟨d1, d2, m1, m2, rfl, hd1, hd2, hval, hm⟩
  · refine ⟨by simp, ?_, ?_⟩
    · intro c hc
      simp only [List.head?_cons, Option.some.injEq] at hc
      exact hc ▸ digit_not_ws d hd
    · intro c hc
      rw [show ([d, ':', m1, m2] : List Char) = [d, ':', m1] ++ [m2] from rfl,
        List.getLast?_concat] at hc
      obtain rfl : m2 = c := by simpa using hc
      exact digit_not_ws m2 ((minutePair_iff m1 m2).1 hm).2
  · refine ⟨by simp, ?_, ?_⟩
    · intro c hc
      simp only [List.head?_cons, Option.some.injEq] at hc
      exact hc ▸ digit_not_ws d1 hd1
    · intro c hc
      rw [show ([d1, d2, ':', m1, m2] : List Char) = [d1, d2, ':', m1] ++ [m2] from rfl,
        List.getLast?_concat] at hc
      obtain rfl : m2 = c := by simpa using hc
      exact digit_not_ws m2 ((minutePair_iff m1 m2).1 hm).2

/-- The 12-hour shape begins and ends with non-whitespace characters. -/
lemma time12Code_ends (t : List Char) (h : time12Code t = true) :
    t ≠ [] ∧ (∀ c, t.head? = some c → isJsWs c = false) ∧
      (∀ c, t.getLast? = some c → isJsWs c = false) := by
  rcases time12Code_elim t h with ⟨d, m1, m2, tail, rfl, hd, hm, ht⟩ |
    ⟨d1, d2, m1, m2, tail, rfl, hd1, hd2, hval, hm, ht⟩
  · obtain ⟨w, a, mm, rfl, hw, ham⟩ := ampmEnd_elim tail ht
    refine ⟨by simp, ?_, ?_⟩
    · intro c hc
      simp only [List.head?_cons, Option.some.injEq] at hc
      exact hc ▸ digit_not_ws d hd
    · intro c hc
      rw [show d :: ':' :: m1 :: m2 :: (w ++ [a, mm]) =
          (d :: ':' :: m1 :: m2 :: (w ++ [a])) ++ [mm] from by simp,
        List.getLast?_concat] at hc
      obtain rfl : mm = c := by simpa using hc
      exact ampm_second_not_ws mm (by simp only [Bool.and_eq_true] at ham; exact ham.2)
  · obtain ⟨w, a, mm, rfl, hw, ham⟩ := ampmEnd_elim tail ht
    refine ⟨by simp, ?_, ?_⟩
    · intro c hc
      simp only [List.head?_cons, Option.some.injEq] at hc
      exact hc ▸ digit_not_ws d1 hd1
    · intro c hc
      rw [show d1 :: d2 :: ':' :: m1 :: m2 :: (w ++ [a, mm]) =
          (d1 :: d2 :: ':' :: m1 :: m2 :: (w ++ [a])) ++ [mm] from by simp,
        List.getLast?_concat] at hc
      obtain rfl : mm = c := by simpa using hc
      exact ampm_second_not_ws mm (by simp only [Bool.and_eq_true] at ham; exact ham.2)

/-- The 24-hour branch of the TM pattern matches exactly its structural
shape. -/
lemma tm24_rmatch_iff (t : List Char) :
    tm24RE.rmatch t = true ↔ time24Code t = true := by
  rw [tm24RE]
  constructor
  · intro h
    rw [RegularExpression.mul_rmatch_iff] at h
    obtain ⟨t1, u, rfl, h1, hu⟩ := h
    rw [RegularExpression.mul_rmatch_iff] at h1
    obtain ⟨hp, cl, rfl, hh, hc⟩ := h1
    rw [RegularExpression.char_rmatch_iff] at hc
    subst hc
    rw [minute_rmatch_iff] at hu
    obtain ⟨m1, m2, rfl, hm⟩ := hu
    rw [hour24_rmatch_iff] at hh
    rcases hh with ⟨d, rfl, hd⟩ | ⟨d1, d2, rfl, hd1, hd2, hval⟩
    · exact time24Code_build1 d m1 m2 hd hm
    · exact time24Code_build2 d1 d2 m1 m2 hd1 hd2 hval hm
  · intro h
    rcases time24Code_elim t h with ⟨d, m1, m2, rfl, hd, hm⟩ |
      ⟨d1, d2, m1, m2, rfl, hd1, hd2, hval, hm⟩
    · rw [RegularExpression.mul_rmatch_iff]
      refine ⟨[d, ':'], [m1, m2], rfl, ?_, (minute_rmatch_iff _).2 ⟨m1, m2, rfl, hm⟩⟩
      rw [RegularExpression.mul_rmatch_iff]
      exact ⟨[d], [':'], rfl, (hour24_rmatch_iff _).2 (Or.inl ⟨d, rfl, hd⟩),
        (RegularExpression.char_rmatch_iff _ _).2 rfl⟩
    · rw [RegularExpression.mul_rmatch_iff]
      refine ⟨[d1, d2, ':'], [m1, m2], rfl, ?_, (minute_rmatch_iff _).2 ⟨m1, m2, rfl, hm⟩⟩
      rw [RegularExpression.mul_rmatch_iff]
      exact ⟨[d1, d2], [':'], rfl,
        (hour24_rmatch_iff _).2 (Or.inr ⟨d1, d2, rfl, hd1, hd2, hval⟩),
        (RegularExpression.char_rmatch_iff _ _).2 rfl⟩

/-- The 12-hour branch of the TM pattern matches exactly its structural
shape. -/
lemma tm12_rmatch_iff (t : List Char) :
    tm12RE.rmatch t = true ↔ time12Code t = true := by
  rw [tm12RE]
  constructor
  · intro h
    rw [RegularExpression.mul_rmatch_iff] at h
    obtain ⟨t1, am, rfl, h1, ham⟩ := h
    rw [RegularExpression.mul_rmatch_iff] at h1
    obtain ⟨t2, w, rfl, h2, hw⟩ := h1
    rw [RegularExpression.mul_rmatch_iff] at h2
    obtain ⟨t3, mins, rfl, h3, hmin⟩ := h2
    rw [RegularExpression.mul_rmatch_iff] at h3
    obtain ⟨hp, cl, rfl, hh, hc⟩ := h3
    rw [RegularExpression.char_rmatch_iff] at hc
    subst hc
    rw [minute_rmatch_iff] at hmin
    obtain ⟨m1, m2, rfl, hm⟩ := hmin
    rw [wsStar_rmatch_iff] at hw
    rw [ampm_rmatch_iff] at ham
    obtain ⟨a, mm, rfl, hamv⟩ := ham
    rw [hour12_rmatch_iff] at hh
    rcases hh with ⟨d, rfl, hd⟩ | ⟨d1, d2, rfl, hd1, hd2, hval⟩
    · show time12Code (d :: ':' :: m1 :: m2 :: (w ++ [a, mm])) = true
      exact time12Code_build1 d m1 m2 (w ++ [a, mm]) hd hm (ampmEnd_build w a mm hw hamv)
    · show time12Code (d1 :: d2 :: ':' :: m1 :: m2 :: (w ++ [a, mm])) = true
      exact time12Code_build2 d1 d2 m1 m2 (w ++ [a, mm]) hd1 hd2 hval hm
        (ampmEnd_build w a mm hw hamv)
  · intro h
    rcases time12Code_elim t h with ⟨d, m1, m2, tail, rfl, hd, hm, ht⟩ |
      ⟨d1, d2, m1, m2, tail, rfl, hd1, hd2, hval, hm, ht⟩
    · obtain ⟨w, a, mm, rfl, hw, hamv⟩ := ampmEnd_elim tail ht
      rw [RegularExpression.mul_rmatch_iff]
      refine ⟨d :: ':' :: m1 :: m2 :: w, [a, mm], by simp, ?_,
        (ampm_rmatch_iff _).2 ⟨a, mm, rfl, hamv⟩⟩
      rw [RegularExpression.mul_rmatch_iff]
      refine ⟨[d, ':', m1, m2], w, rfl, ?_, (wsStar_rmatch_iff _).2 hw⟩
      rw [RegularExpression.mul_rmatch_iff]
      refine ⟨[d, ':'], [m1, m2], rfl, ?_, (minute_rmatch_iff _).2 ⟨m1, m2, rfl, hm⟩⟩
      rw [RegularExpression.mul_rmatch_iff]
      exact ⟨[d], [':'], rfl, (hour12_rmatch_iff _).2 (Or.inl ⟨d, rfl, hd⟩),
        (RegularExpression.char_rmatch_iff _ _).2 rfl⟩
    · obtain ⟨w, a, mm, rfl, hw, hamv⟩ := ampmEnd_elim tail ht
      rw [RegularExpression.mul_rmatch_iff]
      refine ⟨d1 :: d2 :: ':' :: m1 :: m2 :: w, [a, mm], by simp, ?_,
        (ampm_rmatch_iff _).2 ⟨a, mm, rfl, hamv⟩⟩
      rw [RegularExpression.mul_rmatch_iff]
      refine ⟨[d1, d2, ':', m1, m2], w, rfl, ?_, (wsStar_rmatch_iff _).2 hw⟩
      rw [RegularExpression.mul_rmatch_iff]
      refine ⟨[d1, d2, ':'], [m1, m2], rfl, ?_, (minute_rmatch_iff _).2 ⟨m1, m2, rfl, hm⟩⟩
      rw [RegularExpression.mul_rmatch_iff]
      exact ⟨[d1, d2], [':'], rfl,
        (hour12_rmatch_iff _).2 (Or.inr ⟨d1, d2, rfl, hd1, hd2, hval⟩),
        (RegularExpression.char_rmatch_iff _ _).2 rfl⟩

/-- The TM pattern test coincides with the structural time-shape test on
every string. -/
lemma reTest_tmRE_eq_timeShapeCode (s : String) : reTest tmRE s = timeShapeCode s := by
  rw [Bool.eq_iff_iff]
  unfold reTest timeShapeCode
  rw [Bool.or_eq_true]
  constructor
  · intro h
    rw [tmRE, RegularExpression.mul_rmatch_iff] at h
    obtain ⟨t1, w2, hsplit, h1, hw2⟩ := h
    rw [RegularExpression.mul_rmatch_iff] at h1
    obtain ⟨w1, core, rfl, hw1, hcore⟩ := h1
    rw [wsStar_rmatch_iff] at hw1 hw2
    rw [RegularExpression.add_rmatch_iff] at hcore
    have hcode : time24Code core = true ∨ time12Code core = true := by
      rcases hcore with h | h
      · exact Or.inl ((tm24_rmatch_iff core).1 h)
      · exact Or.inr ((tm12_rmatch_iff core).1 h)
    have hends : core ≠ [] ∧ (∀ c, core.head? = some c → isJsWs c = false) ∧
        (∀ c, core.getLast? = some c → isJsWs c = false) := by
      rcases hcode with h | h
      · exact time24Code_ends core h
      · exact time12Code_ends core h
    have htrim : trimWsChars s.data = core := by
      rw [hsplit, List.append_assoc]
      exact trimWs_concat w1 core w2 hw1 hw2 hends.2.1 hends.2.2
    rw [htrim]
    exact hcode
  · intro h
    obtain ⟨w1, w2, hsplit, hw1, hw2⟩ := trim_split s.data
    set t := trimWsChars s.data with ht
    have hcore : (tm24RE + tm12RE).rmatch t = true := by
      rw [RegularExpression.add_rmatch_iff]
      rcases h with h | h
      · exact Or.inl ((tm24_rmatch_iff _).2 h)
      · exact Or.inr ((tm12_rmatch_iff _).2 h)
    rw [tmRE, RegularExpression.mul_rmatch_iff]
    refine ⟨w1 ++ t, w2, by rw [hsplit, List.append_assoc], ?_,
      (wsStar_rmatch_iff _).2 hw2⟩
    rw [RegularExpression.mul_rmatch_iff]
    exact ⟨w1, t, rfl, (wsStar_rmatch_iff _).2 hw1, hcore⟩

/-- C5 counterexample: checkDataType with the TM tag accepts the string
24:59, although it is not a 24-hour clock time (hours run zero through
twenty-three) nor a 12-hour time with meridiem, so the claimed shape
equivalence fails on this input. -/
theorem tm_claim_counterexample :
    checkDataType "TM" (JSValue.str "24:59") [] = (true, []) ∧
    timeShapeSpec "24:59" = false :=
  ⟨by decide, by decide⟩

/-- C5 amended: for every non-exempt value, checkDataType with the TM tag
returns true exactly when the coerced value, after trimming surrounding
whitespace, is of the 24-hour shape with hour zero through twenty-four or
the 12-hour shape with hour zero through twelve (minutes zero through
fifty-nine, optional whitespace before the meridiem letters in either
case), and on failure it appends exactly the fixed TM message. -/
theorem tm_check_matches_time_shape (value : JSValue) (errors : List String)
    (h : isExempt value = false) :
    checkDataType "TM" value errors =
      (if timeShapeCode (jsToString value) then (true, errors)
       else (false, errors ++ ["must be a time value."])) := by
  have hok : dataTypeOk "TM" value = timeShapeCode (jsToString value) := by
    simp [dataTypeOk, h, reTest_tmRE_eq_timeShapeCode]
  rw [checkDataType, hok]
  by_cases ht : timeShapeCode (jsToString value) = true
  · simp [ht]
  · simp only [Bool.not_eq_true] at ht
    simp [ht, errorMessages]

/-- Closed instance of the amended C5 theorem at the string 3:45 pm. -/
theorem tm_check_matches_time_shape_witness :
    isExempt (JSValue.str "3:45 pm") = false ∧
    checkDataType "TM" (JSValue.str "3:45 pm") [] =
      (if timeShapeCode (jsToString (JSValue.str "3:45 pm")) then (true, ([] : List String))
       else (false, [] ++ ["must be a time value."])) :=
  ⟨by decide, tm_check_matches_time_shape (JSValue.str "3:45 pm") [] (by decide)⟩

/-- C6: on a non-exempt value a pattern restriction splits its
delimiter-wrapped value on the slashes, tests the coerced value against the
regex built from the part between the delimiters with the flags after the
trailing delimiter, and on failure appends the fixed message around the raw
restriction value; the closed conjuncts show the case-insensitivity flag
honored on the example pattern and the message of the same pattern without
the flag. -/
theorem pattern_restriction_split_and_flags
    (kv : String) (value : JSValue) (errors : List String)
    (h : isExempt value = false) :
    (checkRestrictions [("pattern", kv)] value errors =
      (jsRegexTest (String.mk (((splitOnChar '/' kv.data).get? 1).getD "undefined".data))
         (String.mk (((splitOnChar '/' kv.data).get? 2).getD [])) (jsToString value),
       if jsRegexTest (String.mk (((splitOnChar '/' kv.data).get? 1).getD "undefined".data))
            (String.mk (((splitOnChar '/' kv.data).get? 2).getD [])) (jsToString value)
       then errors
       else errors ++ ["must match a RegExp pattern of " ++ kv ++ "."])) ∧
    checkRestrictions [("pattern", "/^[A-Z]+$/i")] (JSValue.str "abc") [] = (true, []) ∧
    checkRestrictions [("pattern", "/^[A-Z]+$/")] (JSValue.str "abc") [] =
      (false, ["must match a RegExp pattern of /^[A-Z]+$/."]) := by
  refine ⟨?_, by decide, by decide⟩
  have hok : restrictionOk "pattern" kv value =
      jsRegexTest (String.mk (((splitOnChar '/' kv.data).get? 1).getD "undefined".data))
        (String.mk (((splitOnChar '/' kv.data).get? 2).getD [])) (jsToString value) := by
    simp [restrictionOk]
  by_cases ht : restrictionOk "pattern" kv value = true
  · rw [checkRestrictions_eq _ _ _ h]
    have h1 : allOk [("pattern", kv)] value = true := by simp [allOk, ht]
    have h2 : failingMsgs [("pattern", kv)] value = [] := by
      simp [failingMsgs, List.filter_cons, ht]
    rw [h1, h2]
    rw [hok] at ht
    rw [ht]
    simp
  · simp only [Bool.not_eq_true] at ht
    rw [checkRestrictions_eq _ _ _ h]
    have h1 : allOk [("pattern", kv)] value = false := by simp [allOk, ht]
    have h2 : failingMsgs [("pattern", kv)] value = [restrictionMsg "pattern" kv] := by
      simp [failingMsgs, List.filter_cons, ht]
    rw [h1, h2]
    rw [hok] at ht
    rw [ht]
    simp [restrictionMsg]

/-- Closed instance of the C6 theorem at the case-insensitive example
pattern. -/
theorem pattern_restriction_split_and_flags_witness :
    isExempt (JSValue.str "abc") = false ∧
    checkRestrictions [("pattern", "/^[A-Z]+$/i")] (JSValue.str "abc") [] = (true, []) :=
  ⟨by decide,
    (pattern_restriction_split_and_flags "/^[A-Z]+$/i" (JSValue.str "abc") []
      (by decide)).2.1⟩

end LFormsValidate
